import Mathlib

/-!
Shallow embedding of `gdal2mbtiles/vips.py`: the VIPS image wrapper
(`VImage`), the tile slicer (`TmsTiles`) and the pyramid orchestrator
(`TmsPyramid`).  Python floats are modelled by `ℚ` (every value the code
manipulates is a dyadic rational, hence exactly representable); Python
`int(...)` truncation and Python 2 `round(...)` (ties away from zero) are
modelled explicitly.  Image operations build an operation tree, so that
"returns the receiver unchanged" and "embeds on a canvas" are directly
observable.  Storage is modelled as the list of submitted events.
-/

/-- Python `int(q)`: truncation toward zero. -/
def pyInt (q : ℚ) : ℤ := if 0 ≤ q then ⌊q⌋ else ⌈q⌉

/-- Python 2 `round(q)`: nearest integer, ties away from zero (returns a float). -/
def pyRound (q : ℚ) : ℚ := if 0 ≤ q then ((⌊q + 1/2⌋ : ℤ) : ℚ) else ((⌈q - 1/2⌉ : ℤ) : ℚ)

/-- Mathematical rounding, ties away from zero, as an integer. -/
def mathRound (q : ℚ) : ℤ := if 0 ≤ q then ⌊q + 1/2⌋ else ⌈q - 1/2⌉

/-- Python `int(q)` of a nonnegative quantity, as a natural number. -/
def pyIntNat (q : ℚ) : ℕ := (pyInt q).toNat

/-- The 2-D offset type (`gdal2mbtiles.types.XY`); offsets are rational tile
coordinates (Python floats). -/
structure XY where
  x : ℚ
  y : ℚ
deriving DecidableEq

/-- Tree of image operations produced by the `VImage` wrapper.  `source` is an
opened input image of the given pixel size; the other nodes record the exact
arguments handed to the image kernel (`embed`, `extract_area`, `affine`). -/
inductive VImage where
  | source (width height : ℕ)
  | embed (fill left top width height : ℕ) (img : VImage)
  | extract_area (left top width height : ℕ) (img : VImage)
  | affine (a b c d ox oy : ℚ) (tx ty : ℤ) (width height : ℕ) (img : VImage)
deriving DecidableEq

/-- Pixel width of an image (`VImage.Xsize`). -/
def VImage.Xsize : VImage → ℕ
  | .source w _ => w
  | .embed _ _ _ w _ _ => w
  | .extract_area _ _ w _ _ => w
  | .affine _ _ _ _ _ _ _ _ w _ _ => w

/-- Pixel height of an image (`VImage.Ysize`). -/
def VImage.Ysize : VImage → ℕ
  | .source _ h => h
  | .embed _ _ _ _ h _ => h
  | .extract_area _ _ _ h _ => h
  | .affine _ _ _ _ _ _ _ _ _ h _ => h

/-- `VImage.FILL_OPTIONS`: mapping from fill names to the kernel's fill codes. -/
def FILL_OPTIONS (fill : String) : Option ℕ :=
  if fill = "black" then some 0
  else if fill = "extend" then some 1
  else if fill = "tile" then some 2
  else if fill = "mirror" then some 3
  else if fill = "white" then some 4
  else none

/-- `VImage.embed` called with a string fill: looks the name up in
`FILL_OPTIONS`, raising `ValueError` for an invalid name. -/
def VImage.embedFill (img : VImage) (fill : String) (left top width height : ℕ) :
    Except String VImage :=
  match FILL_OPTIONS fill with
  | none => .error "Invalid fill"
  | some f => .ok (img.embed f left top width height)

/-- `VImage._scale`: corner-aligned affine scaling.  Output size is
`int(W * xscale) x int(H * yscale)`; the transformation matrix is
`[[xscale, 0], [0, yscale]]` with constant offset
`((xscale - 1)/2, (yscale - 1)/2)` and no translation. -/
def VImage._scale (img : VImage) (xscale yscale : ℚ) : VImage :=
  .affine xscale 0 0 yscale ((xscale - 1) / 2) ((yscale - 1) / 2) 0 0
    (pyIntNat ((img.Xsize : ℚ) * xscale)) (pyIntNat ((img.Ysize : ℚ) * yscale)) img

/-- `VImage.shrink`: raises `ValueError` unless `0 < xscale <= 1` and
`0 < yscale <= 1`, then defers to `_scale`. -/
def VImage.shrink (img : VImage) (xscale yscale : ℚ) : Except String VImage :=
  if ¬(0 < xscale ∧ xscale ≤ 1) then
    .error "xscale be between 0.0 and 1.0"
  else if ¬(0 < yscale ∧ yscale ≤ 1) then
    .error "yscale be between 0.0 and 1.0"
  else
    .ok (img._scale xscale yscale)

/-- `VImage.stretch`: raises `ValueError` on `xscale < 1` or `yscale < 1`;
otherwise embeds the image in a 1-pixel extend-filled border, scales the
extended image, and crops away the enlarged border. -/
def VImage.stretch (img : VImage) (xscale yscale : ℚ) : Except String VImage :=
  if xscale < 1 then .error "xscale cannot be less than 1.0"
  else if yscale < 1 then .error "yscale cannot be less than 1.0"
  else
    match img.embedFill "extend" 1 1 (img.Xsize + 1 * 2) (img.Ysize + 1 * 2) with
    | .error e => .error e
    | .ok extended =>
      .ok ((extended._scale xscale yscale).extract_area
        (pyIntNat (1 * xscale)) (pyIntNat (1 * yscale))
        (pyIntNat ((img.Xsize : ℚ) * xscale)) (pyIntNat ((img.Ysize : ℚ) * yscale)))

/-- The total happy path of `VImage.stretch` (the value it returns once the
scale checks pass). -/
def VImage.stretchBody (img : VImage) (xscale yscale : ℚ) : VImage :=
  ((img.embed 1 1 1 (img.Xsize + 1 * 2) (img.Ysize + 1 * 2))._scale xscale yscale).extract_area
    (pyIntNat (1 * xscale)) (pyIntNat (1 * yscale))
    (pyIntNat ((img.Xsize : ℚ) * xscale)) (pyIntNat ((img.Ysize : ℚ) * yscale))

/-- `tms_align`: pixel x-offset `int(round(offset.x * tile_width)) % tile_width`. -/
def alignPxX (tile_width : ℕ) (ox : ℚ) : ℕ :=
  ((pyInt (pyRound (ox * tile_width)) % (tile_width : ℤ))).toNat

/-- `tms_align`: pixel y-offset
`int(round(Ysize - offset.y * tile_height)) % tile_height`. -/
def alignPxY (tile_height H : ℕ) (oy : ℚ) : ℕ :=
  ((pyInt (pyRound ((H : ℚ) - oy * tile_height)) % (tile_height : ℤ))).toNat

/-- `tms_align`: aligned length `int(ceil((W + x/2) / t) * t)` for one axis. -/
def alignSize (t W x : ℕ) : ℕ :=
  (⌈(((W : ℚ) + (x : ℚ) / 2) / t)⌉ * t).toNat

/-- `VImage.tms_align`: pads and aligns the image to the TMS grid.  When the
aligned size equals the current size the receiver is returned unchanged
(after `assert x == y == 0`, modelled by `tmsAlignAssert` below); otherwise
the image is embedded at `(x, y)` on a transparent (`fill = 0`) canvas. -/
def VImage.tms_align (img : VImage) (tile_width tile_height : ℕ) (offset : XY) : VImage :=
  if alignSize tile_width img.Xsize (alignPxX tile_width offset.x) = img.Xsize ∧
      alignSize tile_height img.Ysize (alignPxY tile_height img.Ysize offset.y) = img.Ysize then
    img
  else
    img.embed 0 (alignPxX tile_width offset.x) (alignPxY tile_height img.Ysize offset.y)
      (alignSize tile_width img.Xsize (alignPxX tile_width offset.x))
      (alignSize tile_height img.Ysize (alignPxY tile_height img.Ysize offset.y))

/-- The `assert x == y == 0` guarding the no-change branch of `tms_align`:
this proposition states that whenever that branch is taken, the assertion
holds. -/
def tmsAlignAssert (img : VImage) (tile_width tile_height : ℕ) (offset : XY) : Prop :=
  alignSize tile_width img.Xsize (alignPxX tile_width offset.x) = img.Xsize ∧
      alignSize tile_height img.Ysize (alignPxY tile_height img.Ysize offset.y) = img.Ysize →
    alignPxX tile_width offset.x = 0 ∧ alignPxY tile_height img.Ysize offset.y = 0

/-- A tile submission to the storage collaborator: `storage.save(x, y, z, image)`
or `storage.save_border(x, y, z)`. -/
inductive StorageEvent where
  | save (x y z : ℤ) (image : VImage)
  | saveBorder (x y z : ℤ)
deriving DecidableEq

/-- The TMS address `(tms_x, tms_y)` of a storage event. -/
def StorageEvent.address : StorageEvent → ℤ × ℤ
  | .save x y _ _ => (x, y)
  | .saveBorder x y _ => (x, y)

/-- `TmsTiles`: a set of tiles in TMS coordinates (the storage collaborator is
modelled by returning the submitted events). -/
structure TmsTiles where
  image : VImage
  tile_width : ℕ
  tile_height : ℕ
  offset : XY
  resolution : ℤ
deriving DecidableEq

/-- Python `xrange(0, stop, step)` for positive `step`: the multiples of
`step` below `stop`. -/
def pyRangeBy (stop step : ℕ) : List ℕ :=
  (List.range ((stop + step - 1) / step)).map (fun i => i * step)

/-- `TmsTiles._slice`: for each `(x, y)` on the tile grid, extract the
`tile_width x tile_height` area at `(x, y)` and save it at
`(int(x / tile_width + offset.x), int((H - y) / tile_height + offset.y - 1))`
and zoom `resolution`. -/
def TmsTiles._slice (t : TmsTiles) : List StorageEvent :=
  (pyRangeBy t.image.Ysize t.tile_height).flatMap fun (y : ℕ) =>
    (pyRangeBy t.image.Xsize t.tile_width).map fun (x : ℕ) =>
      .save (pyInt ((x : ℚ) / t.tile_width + t.offset.x))
        (pyInt (((t.image.Ysize : ℚ) - y) / t.tile_height + t.offset.y - 1))
        t.resolution
        (t.image.extract_area x y t.tile_width t.tile_height)

/-- `TmsTiles.fill_borders`: submit `save_border` for every `(x, y)` in the
border set at zoom `resolution`. -/
def TmsTiles.fill_borders (borders : List (ℤ × ℤ)) (resolution : ℤ) : List StorageEvent :=
  borders.map fun b => .saveBorder b.1 b.2 resolution

/-- `TmsTiles.slice`: validates that the image dimensions are whole multiples
of the tile dimensions before slicing.  Takes the current storage contents and
returns the new contents together with the error, if any: on failure the
`ValueError` is raised before any tile is submitted. -/
def TmsTiles.sliceRun (t : TmsTiles) (storage : List StorageEvent) :
    List StorageEvent × Option String :=
  if t.image.Xsize % t.tile_width ≠ 0 then
    (storage, some "image width does not contain a whole number of tiles")
  else if t.image.Ysize % t.tile_height ≠ 0 then
    (storage, some "image height does not contain a whole number of tiles")
  else
    (storage ++ t._slice, none)

/-- The loop body of `TmsTiles.downsample`, iterated `levels` times: halve the
(rational) offset, `shrink` by one half, `tms_align` the shrunk image at the
halved offset.  Returns the final image and rational offset. -/
def downLoop (tile_width tile_height : ℕ) :
    ℕ → VImage → XY → Except String (VImage × XY)
  | 0, img, offset => .ok (img, offset)
  | n + 1, img, offset =>
    match img.shrink (1/2) (1/2) with
    | .error e => .error e
    | .ok shrunk =>
      downLoop tile_width tile_height n
        (shrunk.tms_align tile_width tile_height ⟨offset.x / 2, offset.y / 2⟩)
        ⟨offset.x / 2, offset.y / 2⟩

/-- `TmsTiles.downsample(levels)`: asserts `resolution >= levels > 0`, then
iterates the single-level downsampling step, returning a new `TmsTiles` whose
offset is the truncated final offset and whose resolution dropped by
`levels`. -/
def TmsTiles.downsample (t : TmsTiles) (levels : ℕ) : Except String TmsTiles :=
  if (levels : ℤ) ≤ t.resolution ∧ 0 < levels then
    match downLoop t.tile_width t.tile_height levels t.image t.offset with
    | .error e => .error e
    | .ok s =>
      .ok { image := s.1, tile_width := t.tile_width, tile_height := t.tile_height,
            offset := ⟨((pyInt s.2.x : ℤ) : ℚ), ((pyInt s.2.y : ℤ) : ℚ)⟩,
            resolution := t.resolution - levels }
  else .error "AssertionError"

/-- One single-level downsampling step as a total function: the value
`TmsTiles.downsample 1` returns (offset halved, `shrink(0.5, 0.5)`,
`tms_align`, resolution decremented by one). -/
def downStep (t : TmsTiles) : TmsTiles :=
  let offset2 : XY := ⟨t.offset.x / 2, t.offset.y / 2⟩
  { image := (t.image._scale (1/2) (1/2)).tms_align t.tile_width t.tile_height offset2
    tile_width := t.tile_width
    tile_height := t.tile_height
    offset := ⟨((pyInt offset2.x : ℤ) : ℚ), ((pyInt offset2.y : ℤ) : ℚ)⟩
    resolution := t.resolution - 1 }

/-- `TmsTiles.upsample(levels)`: asserts `levels > 0`, scales the offset by
`2 ** levels`, stretches the whole image once by that factor, aligns it, and
returns a new `TmsTiles` at `resolution + levels`. -/
def TmsTiles.upsample (t : TmsTiles) (levels : ℤ) : Except String TmsTiles :=
  if 0 < levels then
    match t.image.stretch ((2 : ℚ) ^ levels.toNat) ((2 : ℚ) ^ levels.toNat) with
    | .error e => .error e
    | .ok stretched =>
      .ok { image := stretched.tms_align t.tile_width t.tile_height
              ⟨t.offset.x * (2 : ℚ) ^ levels.toNat, t.offset.y * (2 : ℚ) ^ levels.toNat⟩,
            tile_width := t.tile_width, tile_height := t.tile_height,
            offset := ⟨((pyInt (t.offset.x * (2 : ℚ) ^ levels.toNat) : ℤ) : ℚ),
                       ((pyInt (t.offset.y * (2 : ℚ) ^ levels.toNat) : ℤ) : ℚ)⟩,
            resolution := t.resolution + levels }
  else .error "AssertionError"

/-- The total value of `TmsTiles.upsample levels` for `levels > 0`: one
stretch of the whole image by `2 ^ levels`, aligned. -/
def upStep (t : TmsTiles) (levels : ℕ) : TmsTiles :=
  let scale : ℚ := (2 : ℚ) ^ levels
  let offset2 : XY := ⟨t.offset.x * scale, t.offset.y * scale⟩
  { image := (t.image.stretchBody scale scale).tms_align t.tile_width t.tile_height offset2
    tile_width := t.tile_width
    tile_height := t.tile_height
    offset := ⟨((pyInt offset2.x : ℤ) : ℚ), ((pyInt offset2.y : ℤ) : ℚ)⟩
    resolution := t.resolution + levels }

/-- Modelled from the spec: `constants.TILE_SIDE` (the module is not under the
provided sources) — the process-wide tile side, typically 256. -/
def TILE_SIDE : ℕ := 256

/-- `TmsPyramid`: the orchestrator.  The dataset collaborator
(`gdal.Dataset`, not under the provided sources) is abstracted by its consumed
values: the native `resolution` (`GetNativeResolution`), the `lowerLeft`
offset of the TMS extents (`GetTmsExtents().lower_left`) and the per-zoom
border sets (`GetWorldTmsBorders`). -/
structure TmsPyramid where
  image : VImage
  resolution : ℤ
  lowerLeft : XY
  borders : ℤ → List (ℤ × ℤ)
  min_resolution : Option ℤ
  max_resolution : Option ℤ

/-- The `min_resolution` check of `TmsPyramid._validate_resolutions`:
invalid exactly when given and not within `0 <= min < resolution`. -/
def minResInvalid (resolution : ℤ) : Option ℤ → Bool
  | some m => decide (¬(0 ≤ m ∧ m < resolution))
  | none => false

/-- The `max_resolution` check of `TmsPyramid._validate_resolutions`:
invalid exactly when given and below the native resolution. -/
def maxResInvalid (resolution : ℤ) : Option ℤ → Bool
  | some M => decide (M < resolution)
  | none => false

/-- `TmsPyramid._validate_resolutions` proper: first the `min_resolution`
check, then the `max_resolution` check. -/
def validate_resolutions (resolution : ℤ) (minr maxr : Option ℤ) : Except String Unit :=
  if minResInvalid resolution minr then
    .error "min_resolution must be between 0 and the native resolution"
  else if maxResInvalid resolution maxr then
    .error "max_resolution must be greater than the native resolution"
  else .ok ()

/-- The native-level `TmsTiles` built by `TmsPyramid.slice_native`. -/
def TmsPyramid.nativeTiles (p : TmsPyramid) : TmsTiles :=
  { image := p.image, tile_width := TILE_SIDE, tile_height := TILE_SIDE,
    offset := p.lowerLeft, resolution := p.resolution }

/-- `TmsPyramid.slice_native`: fill the borders at the native resolution and
slice the native image; returns the events and the native tiles. -/
def TmsPyramid.slice_native (p : TmsPyramid) : List StorageEvent × TmsTiles :=
  let t := p.nativeTiles
  (TmsTiles.fill_borders (p.borders p.resolution) p.resolution ++ t._slice, t)

/-- The loop of `TmsPyramid.slice_downsample`: `n` iterations with the zoom
`res` descending; each iteration downsamples the previous tiles by one level,
fills the borders at `res` and slices. -/
def downEventsLoop (p : TmsPyramid) :
    TmsTiles → ℕ → ℤ → Except String (List StorageEvent)
  | _, 0, _ => .ok []
  | tiles, n + 1, res =>
    match tiles.downsample 1 with
    | .error e => .error e
    | .ok t =>
      match downEventsLoop p t n (res - 1) with
      | .error e => .error e
      | .ok rest => .ok (TmsTiles.fill_borders (p.borders res) res ++ t._slice ++ rest)

/-- `TmsPyramid.slice_downsample`: validates `min_resolution`, then iterates
over `reversed(range(min_resolution, resolution))`. -/
def TmsPyramid.slice_downsample (p : TmsPyramid) (tiles : TmsTiles) (minr : ℤ) :
    Except String (List StorageEvent) :=
  match validate_resolutions p.resolution (some minr) none with
  | .error e => .error e
  | .ok _ => downEventsLoop p tiles (p.resolution - minr).toNat (p.resolution - 1)

/-- The loop of `TmsPyramid.slice_upsample`: `n` iterations with the zoom
`res` ascending; every iteration upsamples the *same* input tiles (the native
level) by `res - resolution` levels, fills the borders at `res` and slices. -/
def upEventsLoop (p : TmsPyramid) (tiles : TmsTiles) :
    ℕ → ℤ → Except String (List StorageEvent)
  | 0, _ => .ok []
  | n + 1, res =>
    match tiles.upsample (res - p.resolution) with
    | .error e => .error e
    | .ok u =>
      match upEventsLoop p tiles n (res + 1) with
      | .error e => .error e
      | .ok rest => .ok (TmsTiles.fill_borders (p.borders res) res ++ u._slice ++ rest)

/-- `TmsPyramid.slice_upsample`: validates `max_resolution`, then iterates
over `range(resolution + 1, max_resolution + 1)`. -/
def TmsPyramid.slice_upsample (p : TmsPyramid) (tiles : TmsTiles) (maxr : ℤ) :
    Except String (List StorageEvent) :=
  match validate_resolutions p.resolution none (some maxr) with
  | .error e => .error e
  | .ok _ => upEventsLoop p tiles (maxr - p.resolution).toNat (p.resolution + 1)

/-- `TmsPyramid.slice`: validate, slice the native level, then downsample to
`min_resolution` (when given) and upsample to `max_resolution` (when given). -/
def TmsPyramid.slice (p : TmsPyramid) : Except String (List StorageEvent) :=
  match validate_resolutions p.resolution p.min_resolution p.max_resolution with
  | .error e => .error e
  | .ok _ =>
    match (match p.min_resolution with
           | some m => p.slice_downsample p.slice_native.2 m
           | none => .ok []) with
    | .error e => .error e
    | .ok ev1 =>
      match (match p.max_resolution with
             | some M => p.slice_upsample p.slice_native.2 M
             | none => .ok []) with
      | .error e => .error e
      | .ok ev2 => .ok (p.slice_native.1 ++ ev1 ++ ev2)

/-- Modelled from the spec: the image kernel's corner-aligned affine transform
at scale `1/s` with box filtering (the kernel itself, `vipsCC`'s `affine`, is
not part of this repository's sources; the spec fixes the corner-aligned
convention "ideal for reducing the number of pixels in each direction by an
exact fraction (with box filtering)").  Output pixel `(i, j)` is the average
of the `s x s` input box starting at `(s*i, s*j)`. -/
def boxPix (s : ℕ) (f : ℕ → ℕ → ℚ) (i j : ℕ) : ℚ :=
  (∑ p ∈ Finset.range s ×ˢ Finset.range s, f (s * i + p.1) (s * j + p.2)) / (s : ℚ) ^ 2

/-- A concrete image for the pixel-level semantics: dimensions plus the pixel
buffer. -/
structure QImage where
  width : ℕ
  height : ℕ
  pix : ℕ → ℕ → ℚ

/-- The pixel-level meaning of `VImage.shrink` at scale `1/s`: the output
dimensions are `int(W * (1/s)) x int(H * (1/s))` exactly as computed by
`VImage._scale`, and the pixels are box-filtered (`boxPix`, modelled from the
spec). -/
def shrinkBy (s : ℕ) (img : QImage) : QImage :=
  { width := pyIntNat ((img.width : ℚ) * (1 / s))
    height := pyIntNat ((img.height : ℚ) * (1 / s))
    pix := boxPix s img.pix }

theorem QImage.ext_of (a b : QImage) (hw : a.width = b.width) (hh : a.height = b.height)
    (hp : a.pix = b.pix) : a = b := by
  cases a; cases b; simp_all

/-! Helper facts about the Python numeric conversions. -/

theorem pyInt_intCast (n : ℤ) : pyInt ((n : ℚ)) = n := by
  unfold pyInt
  split <;> simp

theorem pyRound_eq_mathRound (q : ℚ) : pyRound q = ((mathRound q : ℤ) : ℚ) := by
  unfold pyRound mathRound
  split <;> rfl

theorem pyInt_pyRound (q : ℚ) : pyInt (pyRound q) = mathRound q := by
  rw [pyRound_eq_mathRound, pyInt_intCast]

theorem mathRound_intCast (n : ℤ) : mathRound ((n : ℚ)) = n := by
  unfold mathRound
  have h1 : ((n : ℚ) + 1/2) = (n : ℚ) + (1/2 : ℚ) := rfl
  split
  · rw [Int.floor_int_add]
    norm_num
  · rw [show ((n : ℚ) - 1/2) = (-(1/2) : ℚ) + (n : ℚ) by ring, Int.ceil_add_int]
    norm_num

theorem pyIntNat_eq_natFloor (q : ℚ) : pyIntNat q = ⌊q⌋₊ := by
  unfold pyIntNat pyInt
  split
  · exact Int.floor_toNat q
  · rename_i h
    have hq : q ≤ 0 := le_of_not_le (fun hc => h hc)
    have h1 : ⌈q⌉ ≤ 0 := Int.ceil_le.mpr (by exact_mod_cast hq)
    have h2 : ⌊q⌋₊ = 0 := Nat.floor_of_nonpos hq
    omega

theorem pyIntNat_mul_inv (w s : ℕ) : pyIntNat ((w : ℚ) * (1 / s)) = w / s := by
  rcases Nat.eq_zero_or_pos s with hs | hs
  · subst hs
    simp [pyIntNat_eq_natFloor]
  · have hsq : ((s : ℚ)) ≠ 0 := by positivity
    rw [show ((w : ℚ) * (1 / s)) = (w : ℚ) / s by ring, pyIntNat_eq_natFloor,
      Nat.floor_div_nat, Nat.floor_natCast]

/-- C4: `shrink(img, sx, sy)` fails with a range error unless `0 < sx <= 1`
and `0 < sy <= 1`; when the precondition holds it returns the affine
transform of the image with matrix `diag(sx, sy)`, constant offset
`((sx - 1)/2, (sy - 1)/2)`, and output size `(floor(W*sx), floor(H*sy))`. -/
theorem shrink_range_and_affine (img : VImage) (sx sy : ℚ) :
    ((∃ e, img.shrink sx sy = .error e) ↔ ¬(0 < sx ∧ sx ≤ 1 ∧ 0 < sy ∧ sy ≤ 1)) ∧
    (0 < sx → sx ≤ 1 → 0 < sy → sy ≤ 1 →
      img.shrink sx sy = .ok (.affine sx 0 0 sy ((sx - 1) / 2) ((sy - 1) / 2) 0 0
        ⌊(img.Xsize : ℚ) * sx⌋₊ ⌊(img.Ysize : ℚ) * sy⌋₊ img)) := by
  unfold VImage.shrink
  constructor
  · by_cases h1 : 0 < sx ∧ sx ≤ 1 <;> by_cases h2 : 0 < sy ∧ sy ≤ 1 <;>
      simp [h1, h2]
  · intro a b c d
    have e1 : ¬¬(0 < sx ∧ sx ≤ 1) := by tauto
    have e2 : ¬¬(0 < sy ∧ sy ≤ 1) := by tauto
    rw [if_neg e1, if_neg e2]
    unfold VImage._scale
    rw [pyIntNat_eq_natFloor, pyIntNat_eq_natFloor]

/-- C4 witness: at `sx = sy = 1/2` the precondition holds and the affine
value is returned. -/
theorem shrink_range_and_affine_witness :
    (VImage.source 4 6).shrink (1/2) (1/2) = .ok (.affine (1/2) 0 0 (1/2)
      ((1/2 - 1) / 2) ((1/2 - 1) / 2) 0 0 2 3 (.source 4 6)) := by
  have h := (shrink_range_and_affine (.source 4 6) (1/2) (1/2)).2
    (by norm_num) (by norm_num) (by norm_num) (by norm_num)
  rw [h]
  norm_num [VImage.Xsize, VImage.Ysize]

/-- C5: `stretch(img, sx, sy)` fails with a range error when `sx < 1` or
`sy < 1`; otherwise it embeds the image in a 1-pixel extend-filled frame
(fill code `FILL_OPTIONS "extend"`), scales the extended image with the
corner-aligned affine, and crops away the enlarged border, returning an image
of size `(int(W*sx), int(H*sy))`. -/
theorem stretch_embed_scale_crop (img : VImage) (sx sy : ℚ) :
    ((∃ e, img.stretch sx sy = .error e) ↔ (sx < 1 ∨ sy < 1)) ∧
    FILL_OPTIONS "extend" = some 1 ∧
    (1 ≤ sx → 1 ≤ sy →
      img.stretch sx sy = .ok
        (((img.embed 1 1 1 (img.Xsize + 2) (img.Ysize + 2))._scale sx sy).extract_area
          (pyIntNat sx) (pyIntNat sy)
          (pyIntNat ((img.Xsize : ℚ) * sx)) (pyIntNat ((img.Ysize : ℚ) * sy))) ∧
      (((img.embed 1 1 1 (img.Xsize + 2) (img.Ysize + 2))._scale sx sy).extract_area
          (pyIntNat sx) (pyIntNat sy)
          (pyIntNat ((img.Xsize : ℚ) * sx)) (pyIntNat ((img.Ysize : ℚ) * sy))).Xsize
        = pyIntNat ((img.Xsize : ℚ) * sx) ∧
      (((img.embed 1 1 1 (img.Xsize + 2) (img.Ysize + 2))._scale sx sy).extract_area
          (pyIntNat sx) (pyIntNat sy)
          (pyIntNat ((img.Xsize : ℚ) * sx)) (pyIntNat ((img.Ysize : ℚ) * sy))).Ysize
        = pyIntNat ((img.Ysize : ℚ) * sy)) := by
  have hfill : ∀ (l t w h : ℕ),
      img.embedFill "extend" l t w h = .ok (img.embed 1 l t w h) := fun _ _ _ _ => rfl
  refine ⟨?_, rfl, ?_⟩
  · unfold VImage.stretch
    by_cases h1 : sx < 1 <;> by_cases h2 : sy < 1 <;>
      simp [h1, h2, hfill]
  · intro h1 h2
    have e1 : ¬ sx < 1 := not_lt.mpr h1
    have e2 : ¬ sy < 1 := not_lt.mpr h2
    unfold VImage.stretch
    rw [if_neg e1, if_neg e2, hfill]
    refine ⟨?_, rfl, rfl⟩
    norm_num

/-- C5 witness: at `sx = sy = 2` on a 3 x 3 image the embed-scale-crop value
is returned and the result size is `(6, 6)`. -/
theorem stretch_embed_scale_crop_witness :
    (VImage.source 3 3).stretch 2 2 = .ok
      ((((VImage.source 3 3).embed 1 1 1 5 5)._scale 2 2).extract_area 2 2 6 6) ∧
    ((((VImage.source 3 3).embed 1 1 1 5 5)._scale 2 2).extract_area 2 2 6 6).Xsize = 6 := by
  have h := (stretch_embed_scale_crop (.source 3 3) 2 2).2.2 (by norm_num) (by norm_num)
  refine ⟨?_, rfl⟩
  have h1 := h.1
  rw [h1]
  norm_num [pyIntNat_eq_natFloor, VImage.Xsize, VImage.Ysize]

/-- C6: `TmsTiles.slice` fails with the unaligned-input error if and only if
the image width is not a whole multiple of the tile width or the image height
is not a whole multiple of the tile height, and in the failing case the error
is raised before any tile is submitted (the storage contents are unchanged). -/
theorem slice_unaligned_spec (t : TmsTiles) (storage : List StorageEvent)
    (hw : 0 < t.tile_width) (hh : 0 < t.tile_height) :
    ((t.sliceRun storage).2.isSome ↔
      (t.image.Xsize % t.tile_width ≠ 0 ∨ t.image.Ysize % t.tile_height ≠ 0)) ∧
    ((t.image.Xsize % t.tile_width ≠ 0 ∨ t.image.Ysize % t.tile_height ≠ 0) →
      (t.sliceRun storage).1 = storage) := by
  unfold TmsTiles.sliceRun
  by_cases h1 : t.image.Xsize % t.tile_width = 0 <;>
    by_cases h2 : t.image.Ysize % t.tile_height = 0 <;>
      simp [h1, h2]

/-- C6 witness: a 100 x 256 image with 256-pixel tiles fails and leaves the
storage untouched. -/
theorem slice_unaligned_spec_witness :
    ((TmsTiles.mk (.source 100 256) 256 256 ⟨0, 0⟩ 0).sliceRun []).2.isSome ∧
    ((TmsTiles.mk (.source 100 256) 256 256 ⟨0, 0⟩ 0).sliceRun []).1 = [] := by
  have h := slice_unaligned_spec (TmsTiles.mk (.source 100 256) 256 256 ⟨0, 0⟩ 0) []
    (by norm_num) (by norm_num)
  have hcond : (TmsTiles.mk (VImage.source 100 256) 256 256 ⟨0, 0⟩ 0).image.Xsize % 256 ≠ 0 := by
    decide
  exact ⟨h.1.mpr (Or.inl hcond), h.2 (Or.inl hcond)⟩

/-- C8: `TmsPyramid` fails with a resolution-validation error exactly when
`min_resolution` is given and does not satisfy `0 <= min < native`, or when
`max_resolution` is given and is strictly below the native resolution;
`max_resolution` equal to the native resolution is accepted. -/
theorem validate_resolutions_spec (res : ℤ) (minr maxr : Option ℤ) :
    ((∃ e, validate_resolutions res minr maxr = .error e) ↔
      ((∃ m, minr = some m ∧ ¬(0 ≤ m ∧ m < res)) ∨
       (∃ M, maxr = some M ∧ M < res))) ∧
    validate_resolutions res none (some res) = .ok () := by
  constructor
  · cases minr with
    | none =>
      cases maxr with
      | none => simp [validate_resolutions, minResInvalid, maxResInvalid]
      | some M =>
        by_cases hM : M < res <;>
          simp [validate_resolutions, minResInvalid, maxResInvalid, hM]
    | some m =>
      by_cases hm : 0 ≤ m ∧ m < res
      · cases maxr with
        | none => simp [validate_resolutions, minResInvalid, maxResInvalid, hm]
        | some M =>
          by_cases hM : M < res <;>
            simp [validate_resolutions, minResInvalid, maxResInvalid, hm, hM]
      · simp [validate_resolutions, minResInvalid, maxResInvalid, hm]
        exact Or.inl (fun h0 => le_of_not_lt (fun hlt => hm ⟨h0, hlt⟩))
  · simp [validate_resolutions, minResInvalid, maxResInvalid]

/-- When the pixel offset `x` is positive, the aligned size strictly exceeds
the current size (so the no-change branch cannot be taken). -/
theorem alignSize_gt (t W x : ℕ) (ht : 0 < t) (hx : 0 < x) : W < alignSize t W x := by
  unfold alignSize
  have htq : (0 : ℚ) < t := by exact_mod_cast ht
  have hxq : (1 : ℚ) ≤ x := by exact_mod_cast hx
  have hle : ((W : ℚ) + (x : ℚ) / 2) / t ≤ (⌈((W : ℚ) + (x : ℚ) / 2) / t⌉ : ℚ) :=
    Int.le_ceil _
  have h2 : (((W : ℚ) + (x : ℚ) / 2) / t) * t = (W : ℚ) + (x : ℚ) / 2 :=
    div_mul_cancel₀ _ (ne_of_gt htq)
  have h1 : (W : ℚ) + 1/2 ≤ (⌈((W : ℚ) + (x : ℚ) / 2) / t⌉ : ℚ) * t := by
    calc (W : ℚ) + 1/2 ≤ (W : ℚ) + (x : ℚ) / 2 := by linarith
      _ = (((W : ℚ) + (x : ℚ) / 2) / t) * t := h2.symm
      _ ≤ (⌈((W : ℚ) + (x : ℚ) / 2) / t⌉ : ℚ) * t :=
          mul_le_mul_of_nonneg_right hle htq.le
  have h3 : (W : ℤ) < ⌈((W : ℚ) + (x : ℚ) / 2) / t⌉ * t := by
    have h4 : ((W : ℤ) : ℚ) < ((⌈((W : ℚ) + (x : ℚ) / 2) / t⌉ * t : ℤ) : ℚ) := by
      push_cast
      linarith
    exact_mod_cast h4
  omega

/-- The aligned size is always a whole multiple of the tile side. -/
theorem alignSize_dvd (t W x : ℕ) : t ∣ alignSize t W x := by
  unfold alignSize
  set c : ℤ := ⌈(((W : ℚ) + (x : ℚ) / 2) / t)⌉ with hc
  rcases le_or_lt 0 c with h | h
  · refine ⟨c.toNat, ?_⟩
    have h1 : ((c * (t : ℤ)).toNat : ℤ) = c * t :=
      Int.toNat_of_nonneg (mul_nonneg h (by positivity))
    have h2 : ((c.toNat : ℤ)) = c := Int.toNat_of_nonneg h
    have h3 : ((c * (t : ℤ)).toNat : ℤ) = ((t * c.toNat : ℕ) : ℤ) := by
      push_cast
      rw [h1, h2]
      ring
    exact_mod_cast h3
  · have h1 : (c * (t : ℤ)) ≤ 0 := mul_nonpos_of_nonpos_of_nonneg h.le (by positivity)
    have h2 : (c * (t : ℤ)).toNat = 0 := by omega
    simp [h2]

/-- An integer-valued offset produces a zero pixel x-offset. -/
theorem alignPxX_intCast (t : ℕ) (a : ℤ) : alignPxX t ((a : ℚ)) = 0 := by
  unfold alignPxX
  rw [show ((a : ℚ) * t) = ((((a * t : ℤ)) : ℤ) : ℚ) by push_cast; ring,
    pyRound_eq_mathRound, mathRound_intCast, pyInt_intCast, Int.mul_emod_left]
  rfl

/-- An integer-valued offset on an image whose height is a whole number of
tiles produces a zero pixel y-offset. -/
theorem alignPxY_intCast (t H : ℕ) (b : ℤ) (hd : t ∣ H) : alignPxY t H ((b : ℚ)) = 0 := by
  unfold alignPxY
  rw [show ((H : ℚ) - (b : ℚ) * t) = ((((H : ℤ) - b * t : ℤ)) : ℚ) by push_cast; ring,
    pyRound_eq_mathRound, mathRound_intCast, pyInt_intCast]
  have hdz : (t : ℤ) ∣ ((H : ℤ) - b * t) :=
    dvd_sub (Int.natCast_dvd_natCast.mpr hd) (dvd_mul_left _ _)
  rw [Int.emod_eq_zero_of_dvd hdz]
  rfl

/-- With a zero pixel offset, a tile-aligned length is left unchanged by
`alignSize`. -/
theorem alignSize_self (t W : ℕ) (hd : t ∣ W) : alignSize t W 0 = W := by
  unfold alignSize
  rcases Nat.eq_zero_or_pos t with ht | ht
  · subst ht
    have hw : W = 0 := Nat.eq_zero_of_zero_dvd hd
    subst hw
    simp
  · obtain ⟨k, hk⟩ := hd
    subst hk
    have htq : ((t : ℚ)) ≠ 0 := by positivity
    rw [show (((t * k : ℕ) : ℚ) + ((0 : ℕ) : ℚ) / 2) / t = ((k : ℕ) : ℚ) by
      push_cast
      rw [zero_div, add_zero, mul_comm]
      exact mul_div_cancel_right₀ _ htq]
    rw [Int.ceil_natCast]
    have h3 : (((k : ℤ) * (t : ℤ))) = ((k * t : ℕ) : ℤ) := by push_cast; ring
    rw [h3, Int.toNat_natCast]
    ring

/-- C7: in `tms_align` the assertion `x == y == 0` guarding the no-change
branch can never fail, and consequently `tms_align` with an integer-valued
offset is the identity on every image whose width and height are whole
multiples of the tile sides. -/
theorem tms_align_assert_and_identity :
    (∀ (img : VImage) (tw th : ℕ) (offset : XY), 0 < tw → 0 < th →
      tmsAlignAssert img tw th offset) ∧
    (∀ (img : VImage) (tw th : ℕ) (a b : ℤ), 0 < tw → 0 < th →
      tw ∣ img.Xsize → th ∣ img.Ysize →
      img.tms_align tw th ⟨(a : ℚ), (b : ℚ)⟩ = img) := by
  constructor
  · intro img tw th offset htw hth
    unfold tmsAlignAssert
    intro hEq
    constructor
    · by_contra hx
      have hgt := alignSize_gt tw img.Xsize (alignPxX tw offset.x) htw
        (Nat.pos_of_ne_zero hx)
      omega
    · by_contra hy
      have hgt := alignSize_gt th img.Ysize (alignPxY th img.Ysize offset.y) hth
        (Nat.pos_of_ne_zero hy)
      omega
  · intro img tw th a b htw hth hdw hdh
    unfold VImage.tms_align
    rw [if_pos]
    show alignSize tw img.Xsize (alignPxX tw ((a : ℚ))) = img.Xsize ∧
      alignSize th img.Ysize (alignPxY th img.Ysize ((b : ℚ))) = img.Ysize
    rw [alignPxX_intCast, alignPxY_intCast _ _ _ hdh,
      alignSize_self _ _ hdw, alignSize_self _ _ hdh]
    exact ⟨rfl, rfl⟩

/-- C7 witness: at `tw = th = 256` on a 512 x 512 image with offset `(3, -2)`
the assertion predicate holds and `tms_align` is the identity. -/
theorem tms_align_assert_and_identity_witness :
    tmsAlignAssert (.source 512 512) 256 256 ⟨((3 : ℤ) : ℚ), ((-2 : ℤ) : ℚ)⟩ ∧
    (VImage.source 512 512).tms_align 256 256 ⟨((3 : ℤ) : ℚ), ((-2 : ℤ) : ℚ)⟩ =
      .source 512 512 := by
  constructor
  · exact tms_align_assert_and_identity.1 (.source 512 512) 256 256 _
      (by norm_num) (by norm_num)
  · exact tms_align_assert_and_identity.2 (.source 512 512) 256 256 3 (-2)
      (by norm_num) (by norm_num) ⟨2, rfl⟩ ⟨2, rfl⟩

/-- C10: for every image and every offset, the image returned by `tms_align`
has width a whole multiple of `tile_width` and height a whole multiple of
`tile_height` — both on the padding branch and on the no-change branch. -/
theorem tms_align_dims_whole_tiles (img : VImage) (tw th : ℕ) (offset : XY) :
    tw ∣ (img.tms_align tw th offset).Xsize ∧ th ∣ (img.tms_align tw th offset).Ysize := by
  unfold VImage.tms_align
  split
  · rename_i h
    exact ⟨h.1 ▸ alignSize_dvd tw img.Xsize _, h.2 ▸ alignSize_dvd th img.Ysize _⟩
  · exact ⟨alignSize_dvd tw img.Xsize _, alignSize_dvd th img.Ysize _⟩

/-- The alignment computation exactly as claim C2 words it, for comparison
with the source's `tms_align`: pixel offsets `x = round(ox*T) mod T` and
`y = (H - round(oy*T)) mod T` (the rounding applied to `oy*T` alone), aligned
size by the same ceiling formula, embedding on a transparent canvas when the
size changes. -/
def tmsAlignClaim (img : VImage) (tw th : ℕ) (offset : XY) : VImage :=
  if alignSize tw img.Xsize ((mathRound (offset.x * tw) % (tw : ℤ)).toNat) = img.Xsize ∧
      alignSize th img.Ysize
        ((((img.Ysize : ℤ) - mathRound (offset.y * th)) % (th : ℤ)).toNat) = img.Ysize then
    img
  else
    img.embed 0 ((mathRound (offset.x * tw) % (tw : ℤ)).toNat)
      ((((img.Ysize : ℤ) - mathRound (offset.y * th)) % (th : ℤ)).toNat)
      (alignSize tw img.Xsize ((mathRound (offset.x * tw) % (tw : ℤ)).toNat))
      (alignSize th img.Ysize
        ((((img.Ysize : ℤ) - mathRound (offset.y * th)) % (th : ℤ)).toNat))

/-- C2 counterexample: on a 10 x 10 image with tile side 256 and offset
`(0, 1/512)` the code computes the pixel y-offset
`round(10 - 0.5) mod 256 = 10`, whereas the claim's formula
`(10 - round(0.5)) mod 256` gives `9`: the embedded results differ. -/
theorem tms_align_claim_counterexample :
    (VImage.source 10 10).tms_align 256 256 ⟨0, 1/512⟩ ≠
      tmsAlignClaim (VImage.source 10 10) 256 256 ⟨0, 1/512⟩ := by
  have c1 : ⌈(5/128 : ℚ)⌉ = (1 : ℤ) := by
    rw [Int.ceil_eq_iff]
    constructor <;> norm_num
  have c2 : ⌈(15/256 : ℚ)⌉ = (1 : ℤ) := by
    rw [Int.ceil_eq_iff]
    constructor <;> norm_num
  have c3 : ⌈(29/512 : ℚ)⌉ = (1 : ℤ) := by
    rw [Int.ceil_eq_iff]
    constructor <;> norm_num
  have t1 : (256 : ℤ).toNat = 256 := rfl
  have t2 : (10 : ℤ).toNat = 10 := rfl
  have t3 : (9 : ℤ).toNat = 9 := rfl
  have hL : (VImage.source 10 10).tms_align 256 256 ⟨0, 1/512⟩ =
      .embed 0 0 10 256 256 (.source 10 10) := by
    norm_num [VImage.tms_align, alignPxX, alignPxY, alignSize, pyRound, pyInt,
      VImage.Xsize, VImage.Ysize, mathRound, t1, t2, c1, c2]
  have hR : tmsAlignClaim (VImage.source 10 10) 256 256 ⟨0, 1/512⟩ =
      .embed 0 0 9 256 256 (.source 10 10) := by
    norm_num [tmsAlignClaim, alignPxX, alignPxY, alignSize, pyRound, pyInt,
      VImage.Xsize, VImage.Ysize, mathRound, t1, t3, c1, c3]
  rw [hL, hR]
  simp

/-- The alignment computation as claim C2 must be amended: the rounding in
the pixel y-offset is applied to the whole expression,
`y = round(H - oy*T) mod T` (rounding ties away from zero). -/
def tmsAlignAmended (img : VImage) (tw th : ℕ) (offset : XY) : VImage :=
  if alignSize tw img.Xsize ((mathRound (offset.x * tw) % (tw : ℤ)).toNat) = img.Xsize ∧
      alignSize th img.Ysize
        ((mathRound ((img.Ysize : ℚ) - offset.y * th) % (th : ℤ)).toNat) = img.Ysize then
    img
  else
    img.embed 0 ((mathRound (offset.x * tw) % (tw : ℤ)).toNat)
      ((mathRound ((img.Ysize : ℚ) - offset.y * th) % (th : ℤ)).toNat)
      (alignSize tw img.Xsize ((mathRound (offset.x * tw) % (tw : ℤ)).toNat))
      (alignSize th img.Ysize
        ((mathRound ((img.Ysize : ℚ) - offset.y * th) % (th : ℤ)).toNat))

/-- C2 (amended): for every image and offset, `tms_align` computes the pixel
offsets `x = round(ox*T) mod T` and `y = round(H - oy*T) mod T` (ties away
from zero), the aligned size `W' = ceil((W + x/2)/T)*T` and
`H' = ceil((H + y/2)/T)*T`, and when `(W', H')` differs from `(W, H)` returns
the image embedded at `(x, y)` on a transparent canvas of size `W' x H'`. -/
theorem tms_align_formula (img : VImage) (tw th : ℕ) (offset : XY) :
    img.tms_align tw th offset = tmsAlignAmended img tw th offset := by
  unfold VImage.tms_align tmsAlignAmended alignPxX alignPxY
  rw [pyInt_pyRound, pyInt_pyRound]

/-- Pointwise congruence for `List.flatMap`. -/
theorem flatMap_congr_on {α β : Type} {l : List α} {f g : α → List β}
    (h : ∀ a ∈ l, f a = g a) : l.flatMap f = l.flatMap g := by
  induction l with
  | nil => rfl
  | cons x xs ih =>
    rw [List.flatMap_cons, List.flatMap_cons, h x (List.mem_cons_self x xs),
      ih (fun a ha => h a (List.mem_cons_of_mem x ha))]

/-- On a whole number of tiles, the Python stepped range enumerates exactly
the multiples `i * step` for `i < stop / step`. -/
theorem pyRangeBy_eq_range (stop step : ℕ) (hs : 0 < step) (hd : step ∣ stop) :
    pyRangeBy stop step = (List.range (stop / step)).map (fun i => i * step) := by
  unfold pyRangeBy
  obtain ⟨k, hk⟩ := hd
  subst hk
  congr 2
  rw [show step * k + step - 1 = step * k + (step - 1) by omega,
    Nat.mul_add_div hs, Nat.div_eq_of_lt (by omega), Nat.mul_div_cancel_left _ hs]
  omega

/-- C1: on an image whose width and height are exact multiples of the tile
sides and whose offset is integer-valued `(a, b)`, `_slice` submits exactly
one tile per grid point — the `T x T` area extracted at `(i*T, j*T)` — saved
at zoom `resolution` with TMS address `tms_x = i + a` and
`tms_y = (H/T - j) + b - 1`. -/
theorem slice_grid (t : TmsTiles) (a b : ℤ)
    (htw : 0 < t.tile_width) (hth : 0 < t.tile_height)
    (hdw : t.tile_width ∣ t.image.Xsize) (hdh : t.tile_height ∣ t.image.Ysize)
    (hox : t.offset.x = ((a : ℤ) : ℚ)) (hoy : t.offset.y = ((b : ℤ) : ℚ)) :
    t._slice = (List.range (t.image.Ysize / t.tile_height)).flatMap fun (j : ℕ) =>
      (List.range (t.image.Xsize / t.tile_width)).map fun (i : ℕ) =>
        StorageEvent.save ((i : ℤ) + a)
          (((t.image.Ysize / t.tile_height - j : ℕ) : ℤ) + b - 1)
          t.resolution
          (t.image.extract_area (i * t.tile_width) (j * t.tile_height)
            t.tile_width t.tile_height) := by
  obtain ⟨m, hm⟩ := id hdh
  obtain ⟨n, hn⟩ := id hdw
  have hmq : t.image.Ysize / t.tile_height = m := by
    rw [hm, Nat.mul_div_cancel_left _ hth]
  have hnq : t.image.Xsize / t.tile_width = n := by
    rw [hn, Nat.mul_div_cancel_left _ htw]
  unfold TmsTiles._slice
  rw [pyRangeBy_eq_range _ _ hth hdh, pyRangeBy_eq_range _ _ htw hdw,
    List.flatMap_map, hmq, hnq]
  apply flatMap_congr_on
  intro j hj
  have hjm : j < m := List.mem_range.mp hj
  rw [List.map_map]
  apply List.map_congr_left
  intro i hi
  have hw0 : ((t.tile_width : ℚ)) ≠ 0 := by positivity
  have hh0 : ((t.tile_height : ℚ)) ≠ 0 := by positivity
  show StorageEvent.save
      (pyInt (((i * t.tile_width : ℕ) : ℚ) / (t.tile_width : ℚ) + t.offset.x))
      (pyInt (((t.image.Ysize : ℚ) - ((j * t.tile_height : ℕ) : ℚ)) / (t.tile_height : ℚ)
        + t.offset.y - 1))
      t.resolution _ = _
  have hx : (((i * t.tile_width : ℕ) : ℚ) / (t.tile_width : ℚ) + t.offset.x)
      = (((i + a : ℤ) : ℤ) : ℚ) := by
    rw [hox]
    push_cast
    field_simp
  have hy : (((t.image.Ysize : ℚ) - ((j * t.tile_height : ℕ) : ℚ)) / (t.tile_height : ℚ)
      + t.offset.y - 1) = ((((m - j : ℕ) : ℤ) + b - 1 : ℤ) : ℚ) := by
    rw [hoy, hm]
    have hsub : (((m - j : ℕ)) : ℚ) = (m : ℚ) - (j : ℚ) := by
      push_cast [Nat.cast_sub hjm.le]
      ring
    push_cast [hsub]
    field_simp
    ring
  rw [hx, hy, pyInt_intCast, pyInt_intCast]

/-- C1 witness: a 1024 x 1024 image with `T = 256`, offset `(0, 0)` and zoom 2
yields exactly one saved tile per grid point, with the 16 addresses
`{0..3} x {0..3}`. -/
theorem slice_grid_witness :
    (TmsTiles.mk (.source 1024 1024) 256 256 ⟨0, 0⟩ 2)._slice =
      ((List.range 4).flatMap fun (j : ℕ) => (List.range 4).map fun (i : ℕ) =>
        StorageEvent.save ((i : ℤ) + 0) (((4 - j : ℕ) : ℤ) + 0 - 1) 2
          (VImage.extract_area (i * 256) (j * 256) 256 256 (.source 1024 1024))) ∧
    ((TmsTiles.mk (.source 1024 1024) 256 256 ⟨0, 0⟩ 2)._slice).map StorageEvent.address =
      [(0, 3), (1, 3), (2, 3), (3, 3), (0, 2), (1, 2), (2, 2), (3, 2),
       (0, 1), (1, 1), (2, 1), (3, 1), (0, 0), (1, 0), (2, 0), (3, 0)] := by
  have h := slice_grid (TmsTiles.mk (.source 1024 1024) 256 256 ⟨0, 0⟩ 2) 0 0
    (by norm_num) (by norm_num) ⟨4, rfl⟩ ⟨4, rfl⟩ (by norm_num) (by norm_num)
  constructor
  · exact h
  · rw [h]
    decide

/-- Splitting a double sum over `range (2*s)` into its four `s x s`
quadrants. -/
theorem sum_range_two_mul_split (s : ℕ) (F : ℕ → ℕ → ℚ) :
    ∑ u ∈ Finset.range (2 * s), ∑ v ∈ Finset.range (2 * s), F u v
      = (∑ c ∈ Finset.range s, ∑ d ∈ Finset.range s, F c d)
      + (∑ c ∈ Finset.range s, ∑ d ∈ Finset.range s, F c (s + d))
      + ((∑ c ∈ Finset.range s, ∑ d ∈ Finset.range s, F (s + c) d)
      + (∑ c ∈ Finset.range s, ∑ d ∈ Finset.range s, F (s + c) (s + d))) := by
  have e1 : ∀ g : ℕ → ℚ, ∑ v ∈ Finset.range (s + s), g v
      = (∑ d ∈ Finset.range s, g d) + ∑ d ∈ Finset.range s, g (s + d) :=
    fun g => Finset.sum_range_add g s s
  rw [two_mul s, Finset.sum_range_add]
  rw [Finset.sum_congr rfl (fun c _ => e1 (fun v => F c v)),
    Finset.sum_congr rfl (fun c _ => e1 (fun v => F (s + c) v)),
    Finset.sum_add_distrib, Finset.sum_add_distrib]

/-- A box average over a single pixel is the identity. -/
theorem boxPix_one (f : ℕ → ℕ → ℚ) : boxPix 1 f = f := by
  funext i j
  unfold boxPix
  rw [Finset.range_one, Finset.singleton_product_singleton, Finset.sum_singleton]
  norm_num

/-- A box average written as an iterated sum. -/
theorem boxPix_sum (s : ℕ) (f : ℕ → ℕ → ℚ) (i j : ℕ) :
    boxPix s f i j
      = (∑ c ∈ Finset.range s, ∑ d ∈ Finset.range s, f (s * i + c) (s * j + d)) / (s : ℚ) ^ 2 := by
  unfold boxPix
  rw [Finset.sum_product]

/-- The 2 x 2 box average written out. -/
theorem boxPix_two (g : ℕ → ℕ → ℚ) (i j : ℕ) :
    boxPix 2 g i j
      = (g (2 * i) (2 * j) + g (2 * i) (2 * j + 1)
        + (g (2 * i + 1) (2 * j) + g (2 * i + 1) (2 * j + 1))) / 4 := by
  rw [boxPix_sum]
  simp only [Finset.sum_range_succ, Finset.sum_range_zero, add_zero, zero_add]
  norm_num

/-- Composing a 2 x 2 box average with an `s x s` box average gives the
`2s x 2s` box average. -/
theorem boxPix_two_comp (s : ℕ) (f : ℕ → ℕ → ℚ) :
    boxPix 2 (boxPix s f) = boxPix (2 * s) f := by
  rcases Nat.eq_zero_or_pos s with hs | hs
  · subst hs
    funext i j
    simp [boxPix]
  · funext i j
    have hsq : ((s : ℚ)) ≠ 0 := by positivity
    have h1 : ∀ c d : ℕ, f (2 * s * i + c) (2 * s * j + d)
        = f (s * (2 * i) + c) (s * (2 * j) + d) := by
      intro c d
      rw [show 2 * s * i + c = s * (2 * i) + c from by ring,
        show 2 * s * j + d = s * (2 * j) + d from by ring]
    have h2 : ∀ c d : ℕ, f (2 * s * i + c) (2 * s * j + (s + d))
        = f (s * (2 * i) + c) (s * (2 * j + 1) + d) := by
      intro c d
      rw [show 2 * s * i + c = s * (2 * i) + c from by ring,
        show 2 * s * j + (s + d) = s * (2 * j + 1) + d from by ring]
    have h3 : ∀ c d : ℕ, f (2 * s * i + (s + c)) (2 * s * j + d)
        = f (s * (2 * i + 1) + c) (s * (2 * j) + d) := by
      intro c d
      rw [show 2 * s * i + (s + c) = s * (2 * i + 1) + c from by ring,
        show 2 * s * j + d = s * (2 * j) + d from by ring]
    have h4 : ∀ c d : ℕ, f (2 * s * i + (s + c)) (2 * s * j + (s + d))
        = f (s * (2 * i + 1) + c) (s * (2 * j + 1) + d) := by
      intro c d
      rw [show 2 * s * i + (s + c) = s * (2 * i + 1) + c from by ring,
        show 2 * s * j + (s + d) = s * (2 * j + 1) + d from by ring]
    rw [boxPix_two, boxPix_sum, boxPix_sum, boxPix_sum, boxPix_sum, boxPix_sum,
      sum_range_two_mul_split s (fun u v => f (2 * s * i + u) (2 * s * j + v))]
    rw [Finset.sum_congr rfl (fun c _ => Finset.sum_congr rfl (fun d _ => h1 c d)),
      Finset.sum_congr rfl (fun c _ => Finset.sum_congr rfl (fun d _ => h2 c d)),
      Finset.sum_congr rfl (fun c _ => Finset.sum_congr rfl (fun d _ => h3 c d)),
      Finset.sum_congr rfl (fun c _ => Finset.sum_congr rfl (fun d _ => h4 c d))]
    rw [div_add_div_same, div_add_div_same, div_add_div_same, div_div]
    rw [show (((2 * s : ℕ) : ℚ)) ^ 2 = (s : ℚ) ^ 2 * 4 from by push_cast; ring]

/-- Shrinking by one pixel (scale 1) is the identity. -/
theorem shrinkBy_one (im : QImage) : shrinkBy 1 im = im := by
  apply QImage.ext_of
  · show pyIntNat ((im.width : ℚ) * (1 / ((1 : ℕ) : ℚ))) = im.width
    rw [pyIntNat_mul_inv]
    exact Nat.div_one _
  · show pyIntNat ((im.height : ℚ) * (1 / ((1 : ℕ) : ℚ))) = im.height
    rw [pyIntNat_mul_inv]
    exact Nat.div_one _
  · exact boxPix_one im.pix

/-- Halving an `s`-fold shrink gives a `2s`-fold shrink. -/
theorem shrinkBy_two_comp (s : ℕ) (im : QImage) :
    shrinkBy 2 (shrinkBy s im) = shrinkBy (2 * s) im := by
  apply QImage.ext_of
  · show pyIntNat (((pyIntNat ((im.width : ℚ) * (1 / s))) : ℚ) * (1 / ((2 : ℕ) : ℚ)))
      = pyIntNat ((im.width : ℚ) * (1 / (2 * s : ℕ)))
    rw [pyIntNat_mul_inv, pyIntNat_mul_inv, pyIntNat_mul_inv,
      Nat.div_div_eq_div_mul, mul_comm s 2]
  · show pyIntNat (((pyIntNat ((im.height : ℚ) * (1 / s))) : ℚ) * (1 / ((2 : ℕ) : ℚ)))
      = pyIntNat ((im.height : ℚ) * (1 / (2 * s : ℕ)))
    rw [pyIntNat_mul_inv, pyIntNat_mul_inv, pyIntNat_mul_inv,
      Nat.div_div_eq_div_mul, mul_comm s 2]
  · exact boxPix_two_comp s im.pix

/-- Iterating the one-half shrink `n` times is the direct `2^n`-fold
shrink, on every image. -/
theorem shrinkBy_iterate (n : ℕ) (im : QImage) :
    (shrinkBy 2)^[n] im = shrinkBy (2 ^ n) im := by
  induction n generalizing im with
  | zero => rw [Function.iterate_zero_apply, pow_zero, shrinkBy_one]
  | succ n ih =>
    rw [Function.iterate_succ_apply', ih, shrinkBy_two_comp, pow_succ, mul_comm (2 ^ n) 2]

/-- C9: applying `shrink(0.5, 0.5)` `k` times to a `(T*2^k) x (T*2^k)` canvas
yields a `T x T` image that is pixel-wise equal to the single direct shrink of
that canvas by the scale `2^(-k)`: both the dimensions (computed exactly as
`_scale` does, `int(W * scale)`) and the box-filtered pixel content
coincide. -/
theorem shrink_iterate_eq_direct (k T : ℕ) (img : QImage)
    (hw : img.width = T * 2 ^ k) (hh : img.height = T * 2 ^ k) :
    (shrinkBy 2)^[k] img = shrinkBy (2 ^ k) img ∧
    ((shrinkBy 2)^[k] img).width = T ∧ ((shrinkBy 2)^[k] img).height = T := by
  have hpos : 0 < 2 ^ k := Nat.pos_pow_of_pos k (by norm_num)
  refine ⟨shrinkBy_iterate k img, ?_, ?_⟩
  · rw [shrinkBy_iterate k img]
    show pyIntNat ((img.width : ℚ) * (1 / (2 ^ k : ℕ))) = T
    rw [pyIntNat_mul_inv, hw, Nat.mul_div_cancel _ hpos]
  · rw [shrinkBy_iterate k img]
    show pyIntNat ((img.height : ℚ) * (1 / (2 ^ k : ℕ))) = T
    rw [pyIntNat_mul_inv, hh, Nat.mul_div_cancel _ hpos]

/-- C9 witness: one half-shrink of a uniform 2 x 2 canvas equals the direct
shrink by `2^(-1)` and is 1 x 1. -/
theorem shrink_iterate_eq_direct_witness :
    (shrinkBy 2)^[1] (QImage.mk 2 2 (fun _ _ => 1)) =
      shrinkBy (2 ^ 1) (QImage.mk 2 2 (fun _ _ => 1)) ∧
    ((shrinkBy 2)^[1] (QImage.mk 2 2 (fun _ _ => 1))).width = 1 ∧
    ((shrinkBy 2)^[1] (QImage.mk 2 2 (fun _ _ => 1))).height = 1 :=
  shrink_iterate_eq_direct 1 1 (QImage.mk 2 2 (fun _ _ => 1)) rfl rfl

/-- The half-scale shrink always passes its range check. -/
theorem shrink_half (img : VImage) :
    img.shrink (1/2) (1/2) = .ok (img._scale (1/2) (1/2)) := by
  unfold VImage.shrink
  norm_num

/-- One iteration of the downsampling loop. -/
theorem downLoop_one (tw th : ℕ) (img : VImage) (off : XY) :
    downLoop tw th 1 img off =
      .ok ((img._scale (1/2) (1/2)).tms_align tw th ⟨off.x / 2, off.y / 2⟩,
        (⟨off.x / 2, off.y / 2⟩ : XY)) := by
  show (match img.shrink (1/2) (1/2) with
    | Except.error e => Except.error e
    | Except.ok shrunk =>
      downLoop tw th 0 (shrunk.tms_align tw th ⟨off.x / 2, off.y / 2⟩)
        ⟨off.x / 2, off.y / 2⟩) = _
  rw [shrink_half]
  rfl

/-- `downsample` with one level succeeds on positive resolutions and returns
the single-level step. -/
theorem downsample_one (t : TmsTiles) (h : 1 ≤ t.resolution) :
    t.downsample 1 = .ok (downStep t) := by
  unfold TmsTiles.downsample
  rw [if_pos, downLoop_one]
  · show Except.ok _ = Except.ok (downStep t)
    unfold downStep
    norm_num
  · exact ⟨by exact_mod_cast h, by norm_num⟩

/-- A stretch with scale at least one passes its range checks. -/
theorem stretch_ge_one (img : VImage) (sx sy : ℚ) (hx : 1 ≤ sx) (hy : 1 ≤ sy) :
    img.stretch sx sy = .ok (img.stretchBody sx sy) := by
  unfold VImage.stretch VImage.stretchBody
  rw [if_neg (not_lt.mpr hx), if_neg (not_lt.mpr hy),
    show img.embedFill "extend" 1 1 (img.Xsize + 1 * 2) (img.Ysize + 1 * 2)
      = .ok (img.embed 1 1 1 (img.Xsize + 1 * 2) (img.Ysize + 1 * 2)) from rfl]

/-- `upsample` with a positive number of levels succeeds and returns the
single-stretch step. -/
theorem upsample_pos (t : TmsTiles) (l : ℕ) (hl : 0 < l) :
    t.upsample ((l : ℕ) : ℤ) = .ok (upStep t l) := by
  unfold TmsTiles.upsample
  rw [if_pos (by exact_mod_cast hl), Int.toNat_natCast,
    stretch_ge_one _ _ _ (one_le_pow₀ (by norm_num)) (one_le_pow₀ (by norm_num))]
  rfl

/-- The downsampling loop of `slice_downsample`, in closed form: iteration `k`
fills the borders at zoom `res - k` and slices the `(k+1)`-fold single-level
downsample of the starting tiles. -/
theorem downEventsLoop_eq (p : TmsPyramid) :
    ∀ (n : ℕ) (tiles : TmsTiles) (res : ℤ),
      tiles.resolution = res + 1 → (n : ℤ) ≤ res + 1 →
      downEventsLoop p tiles n res =
        .ok ((List.range n).flatMap fun (k : ℕ) =>
          TmsTiles.fill_borders (p.borders (res - k)) (res - k)
          ++ (downStep^[k + 1] tiles)._slice) := by
  intro n
  induction n with
  | zero =>
    intro tiles res h1 h2
    simp [downEventsLoop]
  | succ n ih =>
    intro tiles res h1 h2
    show (match tiles.downsample 1 with
      | Except.error e => Except.error e
      | Except.ok t =>
        match downEventsLoop p t n (res - 1) with
        | Except.error e => Except.error e
        | Except.ok rest =>
          Except.ok (TmsTiles.fill_borders (p.borders res) res ++ t._slice ++ rest)) = _
    rw [downsample_one tiles (by omega)]
    have hstep : (downStep tiles).resolution = (res - 1) + 1 := by
      show tiles.resolution - 1 = (res - 1) + 1
      omega
    show (match downEventsLoop p (downStep tiles) n (res - 1) with
      | Except.error e => Except.error e
      | Except.ok rest =>
        Except.ok (TmsTiles.fill_borders (p.borders res) res
          ++ (downStep tiles)._slice ++ rest)) = _
    rw [ih (downStep tiles) (res - 1) hstep (by omega)]
    show Except.ok _ = Except.ok _
    rw [List.range_succ_eq_map, List.flatMap_cons, List.flatMap_map]
    congr 1
    rw [show res - ((0 : ℕ) : ℤ) = res from by push_cast; ring,
      show downStep^[0 + 1] tiles = downStep tiles from by
        rw [show (0 : ℕ) + 1 = 1 from rfl, Function.iterate_one]]
    congr 1
    apply flatMap_congr_on
    intro k hk
    rw [Nat.succ_eq_add_one,
      show downStep^[k + 1 + 1] tiles = downStep^[k + 1] (downStep tiles) from
        Function.iterate_succ_apply downStep (k + 1) tiles,
      show res - ((k + 1 : ℕ) : ℤ) = res - 1 - (k : ℤ) from by push_cast; ring]

/-- The upsampling loop of `slice_upsample`, in closed form: iteration `i`
fills the borders at zoom `resolution + 1 + j + i` and slices the upsample of
the *same* starting tiles by `j + 1 + i` levels. -/
theorem upEventsLoop_eq (p : TmsPyramid) (tiles : TmsTiles) :
    ∀ (n j : ℕ),
      upEventsLoop p tiles n (p.resolution + 1 + (j : ℤ)) =
        .ok ((List.range n).flatMap fun (i : ℕ) =>
          TmsTiles.fill_borders (p.borders (p.resolution + 1 + (j : ℤ) + i))
            (p.resolution + 1 + (j : ℤ) + i)
          ++ (upStep tiles (j + 1 + i))._slice) := by
  intro n
  induction n with
  | zero =>
    intro j
    simp [upEventsLoop]
  | succ n ih =>
    intro j
    show (match tiles.upsample ((p.resolution + 1 + (j : ℤ)) - p.resolution) with
      | Except.error e => Except.error e
      | Except.ok u =>
        match upEventsLoop p tiles n ((p.resolution + 1 + (j : ℤ)) + 1) with
        | Except.error e => Except.error e
        | Except.ok rest =>
          Except.ok (TmsTiles.fill_borders (p.borders (p.resolution + 1 + (j : ℤ)))
            (p.resolution + 1 + (j : ℤ)) ++ u._slice ++ rest)) = _
    rw [show (p.resolution + 1 + (j : ℤ)) - p.resolution = ((j + 1 : ℕ) : ℤ) from by
      push_cast; ring]
    rw [upsample_pos tiles (j + 1) (by omega)]
    show (match upEventsLoop p tiles n ((p.resolution + 1 + (j : ℤ)) + 1) with
      | Except.error e => Except.error e
      | Except.ok rest =>
        Except.ok (TmsTiles.fill_borders (p.borders (p.resolution + 1 + (j : ℤ)))
          (p.resolution + 1 + (j : ℤ)) ++ (upStep tiles (j + 1))._slice ++ rest)) = _
    rw [show (p.resolution + 1 + (j : ℤ)) + 1 = p.resolution + 1 + ((j + 1 : ℕ) : ℤ) from by
      push_cast; ring]
    rw [ih (j + 1)]
    show Except.ok _ = Except.ok _
    rw [List.range_succ_eq_map, List.flatMap_cons, List.flatMap_map]
    congr 1
    rw [show p.resolution + 1 + (j : ℤ) + ((0 : ℕ) : ℤ) = p.resolution + 1 + (j : ℤ) from by
      push_cast; ring,
      show j + 1 + 0 = j + 1 from rfl]
    congr 1
    apply flatMap_congr_on
    intro i hi
    rw [Nat.succ_eq_add_one,
      show p.resolution + 1 + ((j + 1 : ℕ) : ℤ) + (i : ℤ)
        = p.resolution + 1 + (j : ℤ) + ((i + 1 : ℕ) : ℤ) from by push_cast; ring,
      show (j + 1) + 1 + i = j + 1 + (i + 1) from by omega]

/-- `_validate_resolutions` succeeds when both bounds (where given) are in
range. -/
theorem validate_ok (R : ℤ) (minr maxr : Option ℤ)
    (hmin : ∀ m, minr = some m → 0 ≤ m ∧ m < R)
    (hmax : ∀ M, maxr = some M → R ≤ M) :
    validate_resolutions R minr maxr = .ok () := by
  have hb1 : minResInvalid R minr = false := by
    cases minr with
    | none => rfl
    | some m =>
      simp only [minResInvalid, decide_eq_false_iff_not, not_not]
      exact hmin m rfl
  have hb2 : maxResInvalid R maxr = false := by
    cases maxr with
    | none => rfl
    | some M =>
      simp only [maxResInvalid, decide_eq_false_iff_not, not_lt]
      exact hmax M rfl
  unfold validate_resolutions
  rw [hb1, hb2]
  rfl

/-- `slice_downsample`, in closed form. -/
theorem slice_downsample_eq (p : TmsPyramid) (tiles : TmsTiles) (m : ℤ)
    (hres : tiles.resolution = p.resolution)
    (h0 : 0 ≤ m) (h1 : m < p.resolution) :
    p.slice_downsample tiles m =
      .ok ((List.range (p.resolution - m).toNat).flatMap fun (k : ℕ) =>
        TmsTiles.fill_borders (p.borders (p.resolution - 1 - k)) (p.resolution - 1 - k)
        ++ (downStep^[k + 1] tiles)._slice) := by
  unfold TmsPyramid.slice_downsample
  rw [validate_ok p.resolution (some m) none
    (fun x hx => by cases hx; exact ⟨h0, h1⟩) (fun x hx => by cases hx)]
  exact downEventsLoop_eq p (p.resolution - m).toNat tiles (p.resolution - 1)
    (by omega) (by omega)

/-- `slice_upsample`, in closed form. -/
theorem slice_upsample_eq (p : TmsPyramid) (tiles : TmsTiles) (M : ℤ)
    (h2 : p.resolution ≤ M) :
    p.slice_upsample tiles M =
      .ok ((List.range (M - p.resolution).toNat).flatMap fun (i : ℕ) =>
        TmsTiles.fill_borders (p.borders (p.resolution + 1 + i)) (p.resolution + 1 + i)
        ++ (upStep tiles (1 + i))._slice) := by
  unfold TmsPyramid.slice_upsample
  rw [validate_ok p.resolution none (some M) (fun x hx => by cases hx)
    (fun x hx => by cases hx; exact h2)]
  have h := upEventsLoop_eq p tiles (M - p.resolution).toNat 0
  rw [show p.resolution + 1 + ((0 : ℕ) : ℤ) = p.resolution + 1 from by push_cast; ring] at h
  rw [h]

/-- C3: with both bounds given and valid, `TmsPyramid.slice` slices the
native level, then builds every downsampled zoom `z = native - 1 - k` as the
`(k+1)`-fold iterate of the single-level downsample step (each level from the
previous level's tiles: offset halved, `shrink(0.5, 0.5)`, `tms_align`,
resolution decremented by one), and every upsampled zoom `z = native + 1 + i`
from the native tiles by `upsample(z - native)` — one stretch of the whole
native image by `2^(z - native)`; at each produced zoom the borders are
filled and the level is sliced. -/
theorem pyramid_slice_structure (p : TmsPyramid) (m M : ℤ)
    (hmin : p.min_resolution = some m) (hmax : p.max_resolution = some M)
    (h0 : 0 ≤ m) (h1 : m < p.resolution) (h2 : p.resolution ≤ M) :
    p.slice = .ok (
      (TmsTiles.fill_borders (p.borders p.resolution) p.resolution
        ++ p.nativeTiles._slice)
      ++ ((List.range (p.resolution - m).toNat).flatMap fun (k : ℕ) =>
            TmsTiles.fill_borders (p.borders (p.resolution - 1 - k)) (p.resolution - 1 - k)
            ++ (downStep^[k + 1] p.nativeTiles)._slice)
      ++ ((List.range (M - p.resolution).toNat).flatMap fun (i : ℕ) =>
            TmsTiles.fill_borders (p.borders (p.resolution + 1 + i)) (p.resolution + 1 + i)
            ++ (upStep p.nativeTiles (1 + i))._slice)) := by
  unfold TmsPyramid.slice
  rw [validate_ok p.resolution p.min_resolution p.max_resolution
    (fun x hx => by rw [hmin] at hx; cases hx; exact ⟨h0, h1⟩)
    (fun x hx => by rw [hmax] at hx; cases hx; exact h2), hmin, hmax]
  show (match p.slice_downsample p.slice_native.2 m with
    | Except.error e => Except.error e
    | Except.ok ev1 =>
      match p.slice_upsample p.slice_native.2 M with
      | Except.error e => Except.error e
      | Except.ok ev2 => Except.ok (p.slice_native.1 ++ ev1 ++ ev2)) = _
  rw [slice_downsample_eq p p.slice_native.2 m rfl h0 h1]
  show (match p.slice_upsample p.slice_native.2 M with
    | Except.error e => Except.error e
    | Except.ok ev2 => Except.ok (p.slice_native.1
      ++ ((List.range (p.resolution - m).toNat).flatMap fun (k : ℕ) =>
        TmsTiles.fill_borders (p.borders (p.resolution - 1 - k)) (p.resolution - 1 - k)
        ++ (downStep^[k + 1] p.slice_native.2)._slice)
      ++ ev2)) = _
  rw [slice_upsample_eq p p.slice_native.2 M h2]
  rfl

/-- C3 witness: a 512 x 512 native image at resolution 1 with bounds
`min = 0`, `max = 2` and empty border sets. -/
theorem pyramid_slice_structure_witness :
    (TmsPyramid.mk (.source 512 512) 1 ⟨0, 0⟩ (fun _ => []) (some 0) (some 2)).slice =
      .ok (
        (TmsTiles.fill_borders [] 1
          ++ (TmsTiles.mk (.source 512 512) 256 256 ⟨0, 0⟩ 1)._slice)
        ++ ((List.range ((1 : ℤ) - 0).toNat).flatMap fun (k : ℕ) =>
              TmsTiles.fill_borders [] ((1 : ℤ) - 1 - k)
              ++ (downStep^[k + 1] (TmsTiles.mk (.source 512 512) 256 256 ⟨0, 0⟩ 1))._slice)
        ++ ((List.range ((2 : ℤ) - 1).toNat).flatMap fun (i : ℕ) =>
              TmsTiles.fill_borders [] ((1 : ℤ) + 1 + i)
              ++ (upStep (TmsTiles.mk (.source 512 512) 256 256 ⟨0, 0⟩ 1) (1 + i))._slice)) :=
  pyramid_slice_structure _ 0 2 rfl rfl (by norm_num) (by norm_num) (by norm_num)

/-- C8 witness: `min_resolution = 5` at native resolution 3 is rejected and
`max_resolution` equal to the native resolution is accepted. -/
theorem validate_resolutions_spec_witness :
    (∃ e, validate_resolutions 3 (some 5) none = .error e) ∧
    validate_resolutions 3 none (some 3) = .ok () :=
  ⟨(validate_resolutions_spec 3 (some 5) none).1.mpr (Or.inl ⟨5, rfl, by norm_num⟩),
    (validate_resolutions_spec 3 none (some 3)).2⟩

/-- C10 witness: the padded 10 x 10 image has 256-divisible dimensions. -/
theorem tms_align_dims_whole_tiles_witness :
    256 ∣ ((VImage.source 10 10).tms_align 256 256 ⟨0, 1/512⟩).Xsize ∧
    256 ∣ ((VImage.source 10 10).tms_align 256 256 ⟨0, 1/512⟩).Ysize :=
  tms_align_dims_whole_tiles (.source 10 10) 256 256 ⟨0, 1/512⟩

/-- C2 witness: the amended formula agrees with `tms_align` at the
counterexample's input. -/
theorem tms_align_formula_witness :
    (VImage.source 10 10).tms_align 256 256 ⟨0, 1/512⟩ =
      tmsAlignAmended (VImage.source 10 10) 256 256 ⟨0, 1/512⟩ :=
  tms_align_formula (.source 10 10) 256 256 ⟨0, 1/512⟩
